import Mathlib

/-!
Verification of the repository-words-grepper pipeline.

The repository contains two near-duplicate Go implementations:
`main.go` (the searcher runs in per-match-line mode, `--only-matching`)
and an alternate file (the searcher runs in `--count` mode).  Both are
embedded below; the line-mode implementation lives in `LineMode`, the
count-mode one in `CountMode`, and the data model plus the aggregation
code (identical in both files, cited from `main.go`) at top level.

Go strings are modelled as `List Char`.  A Go slice-indexing panic and
a `log.Fatal` process exit are modelled by `Option`/dedicated
constructors, so every function is total and executable.
-/

/-- A Go string, modelled as its character sequence. -/
abbrev GoString := List Char

/-- Character sequence of a Lean string literal. -/
def str (s : String) : GoString := s.data

/-- Worker for `goSplit`, structurally recursive on a fuel bound so that it
evaluates inside the kernel.  Scans left to right; on each occurrence of the
(non-empty) separator it closes the current chunk, exactly as Go's
`strings.Split` does. -/
def splitGo (sep : GoString) : Nat → GoString → List GoString
  | _, [] => [[]]
  | 0, s => [s]
  | fuel + 1, c :: rest =>
    if sep.isPrefixOf (c :: rest) then
      [] :: splitGo sep fuel (List.drop sep.length (c :: rest))
    else
      match splitGo sep fuel rest with
      | [] => [[c]]
      | h :: t => (c :: h) :: t

/-- Go's `strings.Split(s, sep)` for a non-empty separator: the substrings of
`s` between the non-overlapping, left-to-right occurrences of `sep`.  The
result is never empty; `goSplit [] sep = [[]]`, matching Go. -/
def goSplit (s sep : GoString) : List GoString := splitGo sep s.length s

/-- Go struct `GrepResult`: one file with its match count. -/
structure GrepResult where
  fileName : GoString
  count : Int
deriving Repr, DecidableEq

/-- Go struct `Application`: one repository's analysis. -/
structure Application where
  name : GoString
  countSum : Int
  grepResults : List GrepResult
deriving Repr, DecidableEq

/-- Go struct `ResultFile`: the final report. -/
structure ResultFile where
  totalApplications : Nat
  searchWords : List GoString
  totalCountSum : Int
  applications : List Application
deriving Repr, DecidableEq

/-- Go constant `GrepErrorCodeNoMatches = 1`. -/
def GrepErrorCodeNoMatches : Int := 1

/-- Outcome of running the external grep command (`grepCmd.Output()`):
it succeeds with the captured stdout, or the process exits non-zero
(`*exec.ExitError`, carrying the exit code and captured stderr), or it
cannot be run at all (any other error from `Output`). -/
inductive CmdOutcome where
  | success (stdout : GoString)
  | exitErr (code : Int) (stderr : GoString)
  | startErr (msg : GoString)
deriving Repr, DecidableEq

namespace LineMode

/-- `main.go`'s `splitOutputLine`: `strings.Split(grepLine, ":")`, returning
the two pieces when the split has exactly two of them and `("", "")`
otherwise. -/
def splitOutputLine (grepLine : GoString) : GoString × GoString :=
  let split := goSplit grepLine (str ":")
  if split.length = 2 then (split[0]!, split[1]!) else ([], [])

/-- `main.go`'s `removeBasePath`: `strings.Split(path, basePath+"/")` followed
by indexing `cleanName[1]` under the guard `len(cleanName) >= 1`.  The index
can be out of range (a Go panic), modelled by `none`; the guard's else branch
returns `""`. -/
def removeBasePath (path basePath : GoString) : Option GoString :=
  let cleanName := goSplit path (basePath ++ str "/")
  if cleanName.length ≥ 1 then cleanName[1]? else some []

/-- One `+= 1` on the Go map `pathCounts`, modelled as an association list in
insertion order (Go only fixes the map's contents, not its iteration order;
the properties proved below do not depend on the order). -/
def bump : List (GoString × Int) → GoString → List (GoString × Int)
  | [], k => [(k, 1)]
  | (k', c) :: rest, k =>
    if k' = k then (k', c + 1) :: rest else (k', c) :: bump rest k

/-- One iteration of the loop in `main.go`'s `parseGrepOutput`: split the
line, and if both pieces are non-empty, increment `pathCounts` at the
stripped path (propagating the possible `removeBasePath` panic). -/
def parseStep (basePath : GoString) (pathCounts : List (GoString × Int))
    (line : GoString) : Option (List (GoString × Int)) :=
  if (splitOutputLine line).1 ≠ [] ∧ (splitOutputLine line).2 ≠ [] then
    (removeBasePath (splitOutputLine line).1 basePath).map (bump pathCounts)
  else
    some pathCounts

/-- The loop of `main.go`'s `parseGrepOutput` over the output lines. -/
def parseLinesAux (basePath : GoString) (pathCounts : List (GoString × Int)) :
    List GoString → Option (List (GoString × Int))
  | [] => some pathCounts
  | line :: rest =>
    match parseStep basePath pathCounts line with
    | none => none
    | some m => parseLinesAux basePath m rest

/-- `main.go`'s `parseGrepOutput`: split the raw output on newlines, count
per stripped path, then emit one `GrepResult` per map entry.  `none` models a
panic inside the loop. -/
def parseGrepOutput (out basePath : GoString) : Option (List GrepResult) :=
  (parseLinesAux basePath [] (goSplit out (str "\n"))).map
    (fun m => m.map (fun pc => { fileName := pc.1, count := pc.2 }))

/-- `main.go`'s `grep`, given the outcome of the external command: exit code
`GrepErrorCodeNoMatches` becomes an empty result, any other exit error
becomes an error wrapping the command's stderr, a start failure becomes an
error wrapping its message, and a success is parsed (propagating a parse
panic). -/
def grep (cmdOutcome : CmdOutcome) (path : GoString) :
    Option (Except GoString (List GrepResult)) :=
  match cmdOutcome with
  | .success out => (parseGrepOutput out path).map Except.ok
  | .exitErr code stderr =>
    if code = GrepErrorCodeNoMatches then some (Except.ok [])
    else some (Except.error (str "unable to execute grep command: " ++ stderr))
  | .startErr msg =>
    some (Except.error (str "unable to execute grep command: " ++ msg))

/-- `main.go`'s `sumTotalCountForGrepResults`: running sum of the counts. -/
def sumTotalCountForGrepResults (grs : List GrepResult) : Int :=
  grs.foldl (fun result gr => result + gr.count) 0

/-- `main.go`'s `calculateTotalCountSum`: running sum of the per-application
count sums. -/
def calculateTotalCountSum (rf : ResultFile) : Int :=
  rf.applications.foldl (fun result app => result + app.countSum) 0

/-- `main.go`'s `sortOnAppCountSumDesc`: `sort.Slice` with
`less i j := CountSum i > CountSum j`.  Go's `sort.Slice` is an unspecified
comparison sort; it is modelled by `List.mergeSort` under the matching
non-strict order. -/
def sortOnAppCountSumDesc (result : ResultFile) : ResultFile :=
  { result with
    applications :=
      result.applications.mergeSort (fun a b => decide (b.countSum ≤ a.countSum)) }

/-- The slot array filled by `main.go`'s goroutines, once all have joined:
per repository (in configuration order) its name and grep results.  Each
slot gets `CountSum = sumTotalCountForGrepResults`, and afterwards
`TotalCountSum = calculateTotalCountSum`. -/
def buildResultFile (searchWords : List GoString)
    (perRepo : List (GoString × List GrepResult)) : ResultFile :=
  let apps := perRepo.map fun nr =>
    { name := nr.1
      countSum := sumTotalCountForGrepResults nr.2
      grepResults := nr.2 : Application }
  let rf : ResultFile :=
    { totalApplications := perRepo.length
      searchWords := searchWords
      totalCountSum := 0
      applications := apps }
  { rf with totalCountSum := calculateTotalCountSum rf }

/-- The report `main.go` persists: the aggregated slots, sorted by count sum
descending (`writeResult(ResultFilePath, sortOnAppCountSumDesc(results))`). -/
def mainReport (searchWords : List GoString)
    (perRepo : List (GoString × List GrepResult)) : ResultFile :=
  sortOnAppCountSumDesc (buildResultFile searchWords perRepo)

/-- Observable events of one `analyzeRepo` run. -/
inductive Event where
  | gitCloneCall
  | removeDirCall
  | grepCall
  | fatalExit
deriving Repr, DecidableEq

/-- What `main.go`'s `cloneRepo` does from the caller's point of view: return
the temp directory, return the temp-dir creation error, or terminate the
process (`log.Fatal` after a failed `git clone`). -/
inductive CloneResult where
  | ok (dir : GoString)
  | err (e : GoString)
  | fatal
deriving Repr, DecidableEq

/-- Result and event trace of one `analyzeRepo` run; `result = none` means
the process was terminated by `log.Fatal` inside `cloneRepo`. -/
structure AnalyzeOutcome where
  result : Option (Except GoString (List GrepResult))
  trace : List Event
deriving Repr

/-- `main.go`'s `cloneRepo`, parameterised by the outcomes of its two
external effects (`ioutil.TempDir` and `git clone`).  A temp-dir failure is
returned; a clone failure first runs `removeDir()` and then `log.Fatal`s. -/
def cloneRepo (tempDirResult : Except GoString GoString) (gitCloneOk : Bool) :
    CloneResult × List Event :=
  match tempDirResult with
  | .error e => (.err e, [])
  | .ok dir =>
    if gitCloneOk then (.ok dir, [.gitCloneCall])
    else (.fatal, [.gitCloneCall, .removeDirCall, .fatalExit])

/-- `main.go`'s `analyzeRepo`: clone, and on success `defer removeDir()`
around the grep call, so the directory is removed after grep returns on both
the error and the success path.  `grepResult` is the outcome of the `grep`
call when one is made. -/
def analyzeRepo (tempDirResult : Except GoString GoString) (gitCloneOk : Bool)
    (grepResult : Except GoString (List GrepResult)) : AnalyzeOutcome :=
  match cloneRepo tempDirResult gitCloneOk with
  | (.err e, tr) => { result := some (.error e), trace := tr }
  | (.fatal, tr) => { result := none, trace := tr }
  | (.ok _dir, tr) =>
    match grepResult with
    | .error e =>
      { result := some (.error e), trace := tr ++ [.grepCall, .removeDirCall] }
    | .ok res =>
      { result := some (.ok res), trace := tr ++ [.grepCall, .removeDirCall] }

/-- The relative path a counted line contributes its increment to: defined
(`some`) exactly when the line passes the non-empty test and
`removeBasePath` does not panic. -/
def relPathOfLine (basePath line : GoString) : Option GoString :=
  if (splitOutputLine line).1 ≠ [] ∧ (splitOutputLine line).2 ≠ [] then
    removeBasePath (splitOutputLine line).1 basePath
  else none

/-- Modelled from the spec: "splitting the line on the first colon" — the
portion before the first colon and the portion after it (the whole line and
`""` when there is no colon).  Used only to state the spec's counting
condition, to compare with `splitOutputLine`. -/
def splitOnFirstColon (s : GoString) : GoString × GoString :=
  match goSplit s (str ":") with
  | [] => (s, [])
  | p :: rest => (p, List.intercalate (str ":") rest)

/-- Key lookup in the association-list model of the Go map. -/
def lookupCount : List (GoString × Int) → GoString → Option Int
  | [], _ => none
  | (k', c) :: rest, k => if k' = k then some c else lookupCount rest k

/-- The keys of the association-list model of the Go map. -/
def keys (m : List (GoString × Int)) : List GoString := m.map Prod.fst

/-- Number of occurrences of `q` in a list of strings. -/
def countKey (q : GoString) : List GoString → Nat
  | [] => 0
  | x :: xs => (if x = q then 1 else 0) + countKey q xs

end LineMode

namespace CountMode

/-- The alternate implementation's `isNoMatches`: the count field is the
string `"0"`. -/
def isNoMatches (count : GoString) : Bool := count = str "0"

/-- Go's `strconv.Atoi`: an optional sign followed by at least one decimal
digit, rejected when absent, malformed, or out of the 64-bit `int` range. -/
def goAtoi (s : GoString) : Option Int :=
  let signDigits : Int × GoString :=
    match s with
    | '-' :: rest => (-1, rest)
    | '+' :: rest => (1, rest)
    | _ => (1, s)
  if signDigits.2 = [] ∨ ¬ signDigits.2.all (fun c => c.isDigit) then none
  else
    let magnitude : Nat := signDigits.2.foldl (fun n c => n * 10 + (c.toNat - 48)) 0
    let v : Int := signDigits.1 * magnitude
    if -(2 ^ 63) ≤ v ∧ v ≤ 2 ^ 63 - 1 then some v else none

/-- The alternate implementation's `removeBasePath` (same text as
`main.go`'s): split on `basePath+"/"` and index element 1 under the
always-true guard `len >= 1`; `none` models the out-of-range panic. -/
def removeBasePath (name basePath : GoString) : Option GoString :=
  let cleanName := goSplit name (basePath ++ str "/")
  if cleanName.length ≥ 1 then cleanName[1]? else some []

/-- What one loop iteration of the alternate `parseGrepOutput` does with its
line. -/
inductive LineClass where
  | skip
  | abortRepo
  | panicked
  | emit (gr : GrepResult)
deriving Repr, DecidableEq

/-- One iteration of the alternate `parseGrepOutput` loop:
`grStr := strings.Split(res, ":")`, then
`if grStr[0] != "" && grStr[1] != ""` (the `&&` short-circuits, and indexing
`grStr[1]` panics when the split has one piece), then skip on count `"0"`,
abort the repository on an `Atoi` error (`log` + `return nil`), and
otherwise emit the stripped file name (whose `removeBasePath` can panic)
with the parsed count. -/
def classifyLine (pathGrepped line : GoString) : LineClass :=
  let grStr := goSplit line (str ":")
  if grStr[0]! = [] then .skip
  else
    match grStr[1]? with
    | none => .panicked
    | some c =>
      if c = [] then .skip
      else if isNoMatches c then .skip
      else
        match goAtoi c with
        | none => .abortRepo
        | some count =>
          match removeBasePath grStr[0]! pathGrepped with
          | none => .panicked
          | some name => .emit { fileName := name, count := count }

/-- Outcome of the alternate `parseGrepOutput` loop: a panic, the
`return nil` abort, or the accumulated results. -/
inductive ParseOutcome where
  | panicked
  | aborted
  | ok (results : List GrepResult)
deriving Repr, DecidableEq

/-- The loop of the alternate `parseGrepOutput`: results accumulate in line
order; an abort discards everything and returns `nil`; a panic aborts the
whole function. -/
def parseLines (pathGrepped : GoString) : List GoString → ParseOutcome
  | [] => .ok []
  | line :: rest =>
    match classifyLine pathGrepped line with
    | .panicked => .panicked
    | .abortRepo => .aborted
    | .skip => parseLines pathGrepped rest
    | .emit gr =>
      match parseLines pathGrepped rest with
      | .ok results => .ok (gr :: results)
      | o => o

/-- The alternate implementation's `parseGrepOutput` (count mode): split on
newlines and run the loop.  `none` models a panic; the `return nil` abort
yields the empty result list. -/
def parseGrepOutput (out pathGrepped : GoString) : Option (List GrepResult) :=
  match parseLines pathGrepped (goSplit out (str "\n")) with
  | .panicked => none
  | .aborted => some []
  | .ok results => some results

/-- The alternate implementation's `grep` (identical error handling to
`main.go`'s, count-mode parser). -/
def grep (cmdOutcome : CmdOutcome) (path : GoString) :
    Option (Except GoString (List GrepResult)) :=
  match cmdOutcome with
  | .success out => (parseGrepOutput out path).map Except.ok
  | .exitErr code stderr =>
    if code = GrepErrorCodeNoMatches then some (Except.ok [])
    else some (Except.error (str "unable to execute grep command: " ++ stderr))
  | .startErr msg =>
    some (Except.error (str "unable to execute grep command: " ++ msg))

end CountMode


/-! ## Helper lemmas about the line-mode counting map -/

namespace LineMode

theorem lookupCount_bump (m : List (GoString × Int)) (k q : GoString) :
    lookupCount (bump m k) q =
      if q = k then some ((lookupCount m k).getD 0 + 1) else lookupCount m q := by
  induction m with
  | nil =>
    by_cases hq : q = k
    · subst hq; simp [bump, lookupCount]
    · have h1 : ¬ (k = q) := fun h => hq h.symm
      simp [bump, lookupCount, hq, h1]
  | cons hd tl ih =>
    obtain ⟨k', c⟩ := hd
    by_cases hk : k' = k
    · subst hk
      by_cases hq : q = k'
      · subst hq; simp [bump, lookupCount]
      · have h1 : ¬ (k' = q) := fun h => hq h.symm
        simp [bump, lookupCount, hq, h1]
    · by_cases hq : q = k'
      · subst hq
        simp [bump, lookupCount, hk]
      · have h1 : ¬ (k' = q) := fun h => hq h.symm
        simp only [bump, if_neg hk, lookupCount, if_neg h1]
        exact ih

theorem countKey_cons_self (q : GoString) (l : List GoString) :
    countKey q (q :: l) = 1 + countKey q l := by
  simp [countKey]

theorem countKey_cons_ne (x q : GoString) (l : List GoString) (h : x ≠ q) :
    countKey q (x :: l) = countKey q l := by
  simp [countKey, h]

theorem keys_bump (m : List (GoString × Int)) (k : GoString) :
    keys (bump m k) = if k ∈ keys m then keys m else keys m ++ [k] := by
  induction m with
  | nil => simp [bump, keys]
  | cons hd tl ih =>
    obtain ⟨k', c⟩ := hd
    by_cases hk : k' = k
    · subst hk
      simp [bump, keys]
    · have hkeys : keys ((k', c) :: tl) = k' :: keys tl := rfl
      have hbump : bump ((k', c) :: tl) k = (k', c) :: bump tl k := by
        simp [bump, hk]
      have hbk : keys ((k', c) :: bump tl k) = k' :: keys (bump tl k) := rfl
      rw [hbump, hbk, ih, hkeys]
      by_cases hmem : k ∈ keys tl <;> simp [hmem, Ne.symm hk]

theorem keys_nodup_bump (m : List (GoString × Int)) (k : GoString)
    (h : (keys m).Nodup) : (keys (bump m k)).Nodup := by
  rw [keys_bump]
  by_cases hmem : k ∈ keys m <;> simp [hmem, h, List.nodup_append]

theorem keys_nodup_foldl_bump (rels : List GoString) :
    ∀ m : List (GoString × Int), (keys m).Nodup → (keys (rels.foldl bump m)).Nodup := by
  induction rels with
  | nil => intro m h; simpa using h
  | cons r rest ih =>
    intro m h
    simpa using ih (bump m r) (keys_nodup_bump m r h)

theorem lookupCount_eq_none_of_not_mem_keys (m : List (GoString × Int)) (q : GoString)
    (h : q ∉ keys m) : lookupCount m q = none := by
  induction m with
  | nil => rfl
  | cons hd tl ih =>
    obtain ⟨k', c⟩ := hd
    have hkeys : keys ((k', c) :: tl) = k' :: keys tl := rfl
    rw [hkeys] at h
    simp only [List.mem_cons, not_or] at h
    simp only [lookupCount, if_neg (Ne.symm h.1)]
    exact ih h.2

theorem lookupCount_foldl_bump_some (rels : List GoString) :
    ∀ (m : List (GoString × Int)) (q : GoString) (c : Int),
      lookupCount m q = some c →
      lookupCount (rels.foldl bump m) q = some (c + countKey q rels) := by
  induction rels with
  | nil => intro m q c h; simpa [countKey] using h
  | cons r rest ih =>
    intro m q c h
    simp only [List.foldl_cons]
    by_cases hq : q = r
    · subst hq
      have hb : lookupCount (bump m q) q = some (c + 1) := by
        rw [lookupCount_bump]; simp [h]
      rw [ih (bump m q) q (c + 1) hb, countKey_cons_self]
      congr 1
      push_cast
      ring
    · have h1 : r ≠ q := fun h => hq h.symm
      have hb : lookupCount (bump m r) q = some c := by
        rw [lookupCount_bump, if_neg hq]; exact h
      rw [ih (bump m r) q c hb, countKey_cons_ne r q rest h1]

theorem lookupCount_foldl_bump_none (rels : List GoString) :
    ∀ (m : List (GoString × Int)) (q : GoString),
      lookupCount m q = none →
      lookupCount (rels.foldl bump m) q =
        if 0 < countKey q rels then some ((countKey q rels : Int)) else none := by
  induction rels with
  | nil => intro m q h; simpa [countKey] using h
  | cons r rest ih =>
    intro m q h
    simp only [List.foldl_cons]
    by_cases hq : q = r
    · subst hq
      have hb : lookupCount (bump m q) q = some 1 := by
        rw [lookupCount_bump]; simp [h]
      rw [lookupCount_foldl_bump_some rest (bump m q) q 1 hb, countKey_cons_self,
        if_pos (by omega)]
      congr 1
    · have h1 : r ≠ q := fun hrq => hq hrq.symm
      have hb : lookupCount (bump m r) q = none := by
        rw [lookupCount_bump, if_neg hq]; exact h
      rw [ih (bump m r) q hb, countKey_cons_ne r q rest h1]

theorem filter_eq_nil_of_lookupCount_none (m : List (GoString × Int)) (q : GoString)
    (h : lookupCount m q = none) : m.filter (fun pc => pc.1 = q) = [] := by
  induction m with
  | nil => rfl
  | cons hd tl ih =>
    obtain ⟨k', c⟩ := hd
    simp only [lookupCount] at h
    by_cases hk : k' = q
    · simp [hk] at h
    · simp only [if_neg hk] at h
      simpa [List.filter_cons, hk] using ih h

theorem filter_eq_singleton_of_lookupCount (m : List (GoString × Int)) (q : GoString)
    (c : Int) (hnd : (keys m).Nodup) (h : lookupCount m q = some c) :
    m.filter (fun pc => pc.1 = q) = [(q, c)] := by
  induction m with
  | nil => simp [lookupCount] at h
  | cons hd tl ih =>
    obtain ⟨k', c'⟩ := hd
    have hkeys : keys ((k', c') :: tl) = k' :: keys tl := rfl
    rw [hkeys, List.nodup_cons] at hnd
    simp only [lookupCount] at h
    by_cases hk : k' = q
    · subst hk
      rw [if_pos rfl] at h
      injection h with h
      subst h
      have hnil : tl.filter (fun pc => pc.1 = k') = [] :=
        filter_eq_nil_of_lookupCount_none tl k'
          (lookupCount_eq_none_of_not_mem_keys tl k' hnd.1)
      simp [List.filter_cons, hnil]
    · simp only [if_neg hk] at h
      simpa [List.filter_cons, hk] using ih hnd.2 h

theorem parseStep_of_relPath (basePath line : GoString) (m : List (GoString × Int))
    (r : GoString) (h : relPathOfLine basePath line = some r) :
    parseStep basePath m line = some (bump m r) := by
  unfold relPathOfLine at h
  by_cases hc : (splitOutputLine line).1 ≠ [] ∧ (splitOutputLine line).2 ≠ []
  · rw [if_pos hc] at h
    unfold parseStep
    rw [if_pos hc, h]
    rfl
  · rw [if_neg hc] at h
    exact absurd h (by simp)

theorem parseLinesAux_of_all_relPath (basePath : GoString) (lines : List GoString) :
    ∀ m : List (GoString × Int),
      (∀ line ∈ lines, (relPathOfLine basePath line).isSome) →
      parseLinesAux basePath m lines =
        some ((lines.filterMap (relPathOfLine basePath)).foldl bump m) := by
  induction lines with
  | nil => intro m _; rfl
  | cons line rest ih =>
    intro m hall
    obtain ⟨r, hr⟩ := Option.isSome_iff_exists.mp (hall line (List.mem_cons_self line rest))
    have hstep := parseStep_of_relPath basePath line m r hr
    simp only [parseLinesAux, hstep, List.filterMap_cons, hr, List.foldl_cons]
    exact ih (bump m r) (fun l hl => hall l (List.mem_cons_of_mem line hl))

theorem countKey_pos_mem (q : GoString) (l : List GoString) (h : 0 < countKey q l) :
    q ∈ l := by
  induction l with
  | nil => simp [countKey] at h
  | cons x xs ih =>
    by_cases hx : x = q
    · simp [hx]
    · simp only [countKey, if_neg hx, Nat.zero_add] at h
      exact List.mem_cons_of_mem x (ih h)

theorem foldl_add_count (l : List GrepResult) :
    ∀ n : Int, l.foldl (fun result gr => result + gr.count) n =
      n + (l.map (fun gr => gr.count)).sum := by
  induction l with
  | nil => intro n; simp
  | cons gr rest ih =>
    intro n
    simp only [List.foldl_cons, List.map_cons, List.sum_cons, ih]
    ring

theorem foldl_add_countSum (l : List Application) :
    ∀ n : Int, l.foldl (fun result app => result + app.countSum) n =
      n + (l.map (fun app => app.countSum)).sum := by
  induction l with
  | nil => intro n; simp
  | cons app rest ih =>
    intro n
    simp only [List.foldl_cons, List.map_cons, List.sum_cons, ih]
    ring

end LineMode

/-! ## Claim theorems (line mode / `main.go`) -/

namespace LineMode

/-- C1 (code evaluation at the failing input): the claim and the spec say
that a counted line whose path does not contain `basePath + "/"` yields an
empty relative file name and that `parse` returns normally.  The code does
not: `removeBasePath`'s guard `len(cleanName) >= 1` is always true, so the
unreachable `return ""` branch never runs and `cleanName[1]` is indexed out
of range — on the output line `"abc:tok"` with base path `"r"` the parse
panics (modelled as `none`) instead of returning a result with an empty
name. -/
theorem parseGrepOutput_panics_outside_basePath :
    parseGrepOutput (str "abc:tok") (str "r") = none := by
  decide

/-- C2: for raw line-mode output whose lines all have non-empty path and
token parts and whose paths all strip to a relative path, if the relative
path `P` occurs on exactly `k > 0` of the lines, then `parse` returns
normally and its result contains exactly one entry for `P`, with match
count `k`: counts from multiple lines of one file are merged, never
duplicated. -/
theorem parseGrepOutput_merges_counts_per_path (out basePath P : GoString)
    (k : Nat) (lines : List GoString)
    (hsplit : goSplit out (str "\n") = lines)
    (hall : ∀ line ∈ lines, (relPathOfLine basePath line).isSome)
    (hcount : countKey P (lines.filterMap (relPathOfLine basePath)) = k)
    (hk : 0 < k) :
    ∃ res, parseGrepOutput out basePath = some res ∧
      res.filter (fun gr => gr.fileName = P) =
        [{ fileName := P, count := (k : Int) }] := by
  subst hsplit
  have hmain := parseLinesAux_of_all_relPath basePath (goSplit out (str "\n")) [] hall
  set rels := (goSplit out (str "\n")).filterMap (relPathOfLine basePath) with hrels
  refine ⟨(rels.foldl bump []).map (fun pc => { fileName := pc.1, count := pc.2 }), ?_, ?_⟩
  · unfold parseGrepOutput
    rw [hmain]
    rfl
  · have hnd : (keys (rels.foldl bump [])).Nodup :=
      keys_nodup_foldl_bump rels [] (by simp [keys])
    have hlook : lookupCount (rels.foldl bump []) P = some ((k : Nat) : Int) := by
      have hnone := lookupCount_foldl_bump_none rels [] P rfl
      rw [hcount] at hnone
      rw [hnone, if_pos hk]
    have hfil := filter_eq_singleton_of_lookupCount (rels.foldl bump []) P ((k : Nat) : Int)
      hnd hlook
    rw [List.filter_map]
    rw [show ((fun gr => decide (gr.fileName = P)) ∘
        (fun pc : GoString × Int => ({ fileName := pc.1, count := pc.2 } : GrepResult))) =
        (fun pc : GoString × Int => decide (pc.1 = P)) from rfl]
    rw [hfil]
    rfl

/-- Closed witness for C2 at a concrete three-line output in which the
relative path `a.txt` occurs twice. -/
theorem parseGrepOutput_merges_counts_per_path_witness :
    (goSplit (str "r/a.txt:x\nr/b.txt:y\nr/a.txt:z") (str "\n") =
        [str "r/a.txt:x", str "r/b.txt:y", str "r/a.txt:z"] ∧
      (∀ line ∈ [str "r/a.txt:x", str "r/b.txt:y", str "r/a.txt:z"],
        (relPathOfLine (str "r") line).isSome) ∧
      countKey (str "a.txt")
        (([str "r/a.txt:x", str "r/b.txt:y", str "r/a.txt:z"]).filterMap
          (relPathOfLine (str "r"))) = 2) ∧
    (∃ res, parseGrepOutput (str "r/a.txt:x\nr/b.txt:y\nr/a.txt:z") (str "r") = some res ∧
      res.filter (fun gr => gr.fileName = str "a.txt") =
        [{ fileName := str "a.txt", count := (2 : Int) }]) :=
  ⟨⟨by decide, by decide, by decide⟩,
    parseGrepOutput_merges_counts_per_path
      (str "r/a.txt:x\nr/b.txt:y\nr/a.txt:z") (str "r") (str "a.txt") 2
      [str "r/a.txt:x", str "r/b.txt:y", str "r/a.txt:z"]
      (by decide) (by decide) (by decide) (by decide)⟩

/-- C3: in the persisted report, `totalCountSum` equals the sum of
`countSum` over all applications, each application's `countSum` equals the
sum of the counts of its grep results, and for the empty repository set
`totalCountSum` is `0`. -/
theorem mainReport_totalCountSum_invariant (searchWords : List GoString)
    (perRepo : List (GoString × List GrepResult)) :
    (mainReport searchWords perRepo).totalCountSum =
      ((mainReport searchWords perRepo).applications.map
        (fun app => app.countSum)).sum
    ∧ (∀ app ∈ (mainReport searchWords perRepo).applications,
        app.countSum = (app.grepResults.map (fun gr => gr.count)).sum)
    ∧ (mainReport searchWords ([] : List (GoString × List GrepResult))).totalCountSum = 0 := by
  have happs : (mainReport searchWords perRepo).applications =
      (perRepo.map (fun nr =>
        ({ name := nr.1, countSum := sumTotalCountForGrepResults nr.2,
           grepResults := nr.2 } : Application))).mergeSort
        (fun a b => decide (b.countSum ≤ a.countSum)) := rfl
  have htot : (mainReport searchWords perRepo).totalCountSum =
      (perRepo.map (fun nr =>
        ({ name := nr.1, countSum := sumTotalCountForGrepResults nr.2,
           grepResults := nr.2 } : Application))).foldl
        (fun result app => result + app.countSum) 0 := rfl
  refine ⟨?_, ?_, rfl⟩
  · rw [htot, foldl_add_countSum, happs]
    have hperm := List.mergeSort_perm
      (perRepo.map (fun nr =>
        ({ name := nr.1, countSum := sumTotalCountForGrepResults nr.2,
           grepResults := nr.2 } : Application)))
      (fun a b => decide (b.countSum ≤ a.countSum))
    rw [List.Perm.sum_eq (hperm.map (fun app => app.countSum))]
    ring
  · intro app hmem
    rw [happs, List.mem_mergeSort] at hmem
    obtain ⟨nr, _, hnr⟩ := List.mem_map.mp hmem
    subst hnr
    show sumTotalCountForGrepResults nr.2 = _
    rw [sumTotalCountForGrepResults, foldl_add_count]
    ring

/-- Closed witness for C3 at a concrete two-repository slot array. -/
theorem mainReport_totalCountSum_invariant_witness :
    ({ name := str "b", countSum := 4,
       grepResults := [{ fileName := str "g", count := 4 }] } : Application) ∈
      (mainReport [str "w"]
        [(str "a", [{ fileName := str "f", count := 2 }]),
         (str "b", [{ fileName := str "g", count := 4 }])]).applications ∧
    ({ name := str "b", countSum := 4,
       grepResults := [{ fileName := str "g", count := 4 }] } : Application).countSum =
      (([{ fileName := str "g", count := 4 }] : List GrepResult).map
        (fun gr => gr.count)).sum :=
  ⟨by
    show _ ∈ List.mergeSort _ _
    rw [List.mem_mergeSort]
    decide,
   (mainReport_totalCountSum_invariant [str "w"]
      [(str "a", [{ fileName := str "f", count := 2 }]),
       (str "b", [{ fileName := str "g", count := 4 }])]).2.1
    { name := str "b", countSum := 4,
      grepResults := [{ fileName := str "g", count := 4 }] }
    (by
      show _ ∈ List.mergeSort _ _
      rw [List.mem_mergeSort]
      decide)⟩

/-- C4: whatever order the concurrent units filled the slot array in (the
statement quantifies over every slot-array content), the persisted report's
applications are sorted by `countSum` in descending order, and they are a
permutation of the aggregated slots. -/
theorem mainReport_sorted_by_countSum_desc (searchWords : List GoString)
    (perRepo : List (GoString × List GrepResult)) :
    List.Pairwise (fun a b => b.countSum ≤ a.countSum)
      (mainReport searchWords perRepo).applications
    ∧ ((mainReport searchWords perRepo).applications).Perm
      (buildResultFile searchWords perRepo).applications := by
  constructor
  · have h := @List.sorted_mergeSort Application
      (fun a b : Application => decide (b.countSum ≤ a.countSum))
      (fun a b c hab hbc => by
        simp only [decide_eq_true_eq] at *
        omega)
      (fun a b => by
        simp only [Bool.or_eq_true, decide_eq_true_eq]
        omega)
      (buildResultFile searchWords perRepo).applications
    exact h.imp (fun hab => by simpa using hab)
  · exact List.mergeSort_perm _ _

/-- C5: after the external search command has run and exited non-zero, exit
code 1 (`GrepErrorCodeNoMatches`) is translated into an empty result with no
error, and any other non-zero exit code is translated into an error carrying
the command's stderr text. -/
theorem grep_exit_code_handling (code : Int) (stderr path : GoString) :
    (code = GrepErrorCodeNoMatches →
      grep (.exitErr code stderr) path = some (.ok []))
    ∧ (code ≠ 0 → code ≠ GrepErrorCodeNoMatches →
      grep (.exitErr code stderr) path =
        some (.error (str "unable to execute grep command: " ++ stderr))) := by
  constructor
  · intro h
    simp [grep, h]
  · intro _ h
    simp [grep, h]

/-- Closed witness for C5 at exit code 2. -/
theorem grep_exit_code_handling_witness :
    (2 : Int) ≠ 0 ∧ (2 : Int) ≠ GrepErrorCodeNoMatches ∧
    grep (.exitErr 2 (str "boom")) (str "p") =
      some (.error (str "unable to execute grep command: " ++ str "boom")) :=
  ⟨by decide, by decide,
    (grep_exit_code_handling 2 (str "boom") (str "p")).2 (by decide) (by decide)⟩

/-- C6 (counterexample): the claim says a line is counted if and only if
both portions around the FIRST colon are non-empty.  On the line `"a:b:c"`
both first-colon portions (`"a"` and `"b:c"`) are non-empty, yet
`splitOutputLine` — which splits on every colon and requires exactly two
pieces — returns `("", "")`, so the line is not counted: the claimed
equivalence fails. -/
theorem first_colon_split_counterexample :
    ¬ (((splitOutputLine (str "a:b:c")).1 ≠ [] ∧
        (splitOutputLine (str "a:b:c")).2 ≠ []) ↔
       ((splitOnFirstColon (str "a:b:c")).1 ≠ [] ∧
        (splitOnFirstColon (str "a:b:c")).2 ≠ [])) := by
  decide

/-- C6 (amended): a line contributes one increment to its stripped path's
count if and only if splitting the line on every colon yields exactly two
pieces, both non-empty (the line contains exactly one colon and both the
path and the token part are non-empty); every other line leaves the count
state unchanged. -/
theorem line_counted_iff_exactly_one_colon (basePath : GoString)
    (pathCounts : List (GoString × Int)) (line : GoString) :
    parseStep basePath pathCounts line =
      if (goSplit line (str ":")).length = 2 ∧
          (goSplit line (str ":"))[0]! ≠ [] ∧ (goSplit line (str ":"))[1]! ≠ [] then
        (removeBasePath (goSplit line (str ":"))[0]! basePath).map (bump pathCounts)
      else some pathCounts := by
  by_cases hl : (goSplit line (str ":")).length = 2
  · simp [parseStep, splitOutputLine, hl]
  · simp [parseStep, splitOutputLine, hl]

/-- C8: whenever acquisition succeeds, the temporary directory is released
on every exit path of `analyzeRepo` (grep success and grep error alike);
when temporary-directory creation fails, the error is propagated and no
search is attempted; and when `git clone` fails, the directory is removed
and the process stops before any search. -/
theorem analyzeRepo_release_and_error_propagation
    (tempDirResult : Except GoString GoString) (gitCloneOk : Bool)
    (grepResult : Except GoString (List GrepResult)) :
    ((∃ dir, (cloneRepo tempDirResult gitCloneOk).1 = CloneResult.ok dir) →
      Event.removeDirCall ∈ (analyzeRepo tempDirResult gitCloneOk grepResult).trace)
    ∧ (∀ e, tempDirResult = .error e →
        (analyzeRepo tempDirResult gitCloneOk grepResult).result = some (.error e) ∧
        Event.grepCall ∉ (analyzeRepo tempDirResult gitCloneOk grepResult).trace)
    ∧ (∀ dir, tempDirResult = .ok dir → gitCloneOk = false →
        (analyzeRepo tempDirResult gitCloneOk grepResult).result = none ∧
        Event.removeDirCall ∈ (analyzeRepo tempDirResult gitCloneOk grepResult).trace ∧
        Event.grepCall ∉ (analyzeRepo tempDirResult gitCloneOk grepResult).trace) := by
  cases tempDirResult with
  | error e =>
    refine ⟨?_, ?_, ?_⟩
    · rintro ⟨dir, hdir⟩
      simp [cloneRepo] at hdir
    · intro e' he
      injection he with he
      subst he
      exact ⟨rfl, by simp [analyzeRepo, cloneRepo]⟩
    · intro dir hdir
      exact absurd hdir (by simp)
  | ok dir =>
    cases gitCloneOk with
    | true =>
      refine ⟨?_, ?_, ?_⟩
      · intro _
        cases grepResult <;> simp [analyzeRepo, cloneRepo]
      · intro e he
        exact absurd he (by simp)
      · intro dir' _ hfalse
        cases hfalse
    | false =>
      refine ⟨?_, ?_, ?_⟩
      · intro _
        cases grepResult <;> simp [analyzeRepo, cloneRepo]
      · intro e he
        exact absurd he (by simp)
      · intro dir' _ _
        cases grepResult <;>
          exact ⟨rfl, by simp [analyzeRepo, cloneRepo], by simp [analyzeRepo, cloneRepo]⟩

/-- Closed witness for C8: a successful acquisition followed by a failing
grep still releases the directory. -/
theorem analyzeRepo_release_witness :
    (∃ dir, (cloneRepo (.ok (str "/tmp/clone1")) true).1 = CloneResult.ok dir) ∧
    Event.removeDirCall ∈
      (analyzeRepo (.ok (str "/tmp/clone1")) true (.error (str "grep failed"))).trace :=
  ⟨⟨str "/tmp/clone1", rfl⟩,
    (analyzeRepo_release_and_error_propagation (.ok (str "/tmp/clone1")) true
      (.error (str "grep failed"))).1 ⟨str "/tmp/clone1", rfl⟩⟩

end LineMode

/-! ## Claim theorems (count mode / the alternate implementation) -/

namespace CountMode

theorem parseLines_skip_erasure (pathGrepped line : GoString)
    (h : classifyLine pathGrepped line = .skip) :
    ∀ l1 l2 : List GoString,
      parseLines pathGrepped (l1 ++ line :: l2) = parseLines pathGrepped (l1 ++ l2) := by
  intro l1
  induction l1 with
  | nil =>
    intro l2
    simp only [List.nil_append, parseLines, h]
  | cons x xs ih =>
    intro l2
    simp only [List.cons_append]
    cases hcx : classifyLine pathGrepped x with
    | panicked => simp only [parseLines, hcx]
    | abortRepo => simp only [parseLines, hcx]
    | skip =>
      simp only [parseLines, hcx, List.append_eq]
      exact ih l2
    | emit gr =>
      simp only [parseLines, hcx, List.append_eq]
      rw [ih l2]

theorem parseLines_abort_of_prefix (pathGrepped : GoString) (l1 : List GoString) :
    ∀ (line : GoString) (l2 : List GoString),
      (∀ x ∈ l1, classifyLine pathGrepped x ≠ .panicked) →
      classifyLine pathGrepped line = .abortRepo →
      parseLines pathGrepped (l1 ++ line :: l2) = .aborted := by
  induction l1 with
  | nil =>
    intro line l2 _ hab
    simp only [List.nil_append, parseLines, hab]
  | cons x xs ih =>
    intro line l2 hall hab
    have hx := hall x (List.mem_cons_self x xs)
    have hrest := fun y hy => hall y (List.mem_cons_of_mem x hy)
    simp only [List.cons_append]
    cases hcx : classifyLine pathGrepped x with
    | panicked => exact absurd hcx hx
    | abortRepo => simp only [parseLines, hcx]
    | skip =>
      simp only [parseLines, hcx, List.append_eq]
      exact ih line l2 hrest hab
    | emit gr =>
      simp only [parseLines, hcx, List.append_eq]
      rw [ih line l2 hrest hab]

/-- C7: a count-mode output line whose count field is the string `"0"` is
skipped: inserting such a line anywhere in the output leaves the loop's
outcome unchanged, so no `GrepResult` is ever emitted for it. -/
theorem count_zero_line_excluded (pathGrepped line : GoString)
    (l1 l2 : List GoString)
    (h0 : (goSplit line (str ":"))[0]! ≠ [])
    (h1 : (goSplit line (str ":"))[1]? = some (str "0")) :
    parseLines pathGrepped (l1 ++ line :: l2) = parseLines pathGrepped (l1 ++ l2) := by
  have hne : ¬ (str "0" = ([] : GoString)) := by decide
  have hnm : isNoMatches (str "0") = true := by decide
  have hskip : classifyLine pathGrepped line = .skip := by
    simp only [classifyLine]
    rw [if_neg h0, h1]
    simp [hne, hnm]
  exact parseLines_skip_erasure pathGrepped line hskip l1 l2

/-- Closed witness for C7: dropping the `"r/a.txt:0"` line from a two-line
output does not change the loop outcome. -/
theorem count_zero_line_excluded_witness :
    ((goSplit (str "r/a.txt:0") (str ":"))[0]! ≠ [] ∧
      (goSplit (str "r/a.txt:0") (str ":"))[1]? = some (str "0")) ∧
    parseLines (str "r") ([str "r/b.txt:2"] ++ str "r/a.txt:0" :: []) =
      parseLines (str "r") ([str "r/b.txt:2"] ++ []) :=
  ⟨⟨by decide, by decide⟩,
    count_zero_line_excluded (str "r") (str "r/a.txt:0") [str "r/b.txt:2"] []
      (by decide) (by decide)⟩

/-- C9: when a count-mode line whose count field fails to parse as a number
is reached (no earlier line having panicked), the whole repository's
contribution is dropped — `parseGrepOutput` returns the empty result list,
earlier lines' results included — and `grep` surfaces this as a success with
no results, not as an error (so the run is not aborted). -/
theorem non_numeric_count_aborts_repo (pathGrepped out : GoString)
    (l1 l2 : List GoString) (line : GoString)
    (hsplit : goSplit out (str "\n") = l1 ++ line :: l2)
    (hpan : ∀ x ∈ l1, classifyLine pathGrepped x ≠ .panicked)
    (hab : classifyLine pathGrepped line = .abortRepo) :
    parseGrepOutput out pathGrepped = some [] ∧
    grep (.success out) pathGrepped = some (.ok []) := by
  have habort := parseLines_abort_of_prefix pathGrepped l1 line l2 hpan hab
  have hp : parseGrepOutput out pathGrepped = some [] := by
    unfold parseGrepOutput
    rw [hsplit, habort]
  exact ⟨hp, by simp [grep, hp]⟩

/-- Closed witness for C9: a two-line output whose second line has the
non-numeric count `"xx"` yields an empty, error-free result even though the
first line parsed fine. -/
theorem non_numeric_count_aborts_repo_witness :
    (goSplit (str "r/a.txt:3\nr/b.txt:xx") (str "\n") =
        [str "r/a.txt:3"] ++ str "r/b.txt:xx" :: [] ∧
      (∀ x ∈ [str "r/a.txt:3"], classifyLine (str "r") x ≠ .panicked) ∧
      classifyLine (str "r") (str "r/b.txt:xx") = .abortRepo) ∧
    parseGrepOutput (str "r/a.txt:3\nr/b.txt:xx") (str "r") = some [] ∧
    grep (.success (str "r/a.txt:3\nr/b.txt:xx")) (str "r") = some (.ok []) :=
  ⟨⟨by decide, by decide, by decide⟩,
    non_numeric_count_aborts_repo (str "r") (str "r/a.txt:3\nr/b.txt:xx")
      [str "r/a.txt:3"] [] (str "r/b.txt:xx") (by decide) (by decide) (by decide)⟩

/-- C10: the count-mode parser is not total — on the output consisting of
the single colon-free non-empty line `"abc"`, indexing the second field of
the split line is out of range, so the parse panics (modelled as `none`)
instead of ignoring the malformed line. -/
theorem parseGrepOutput_panics_on_no_colon_line :
    parseGrepOutput (str "abc") (str "r") = none := by
  decide

end CountMode
